import Mathlib

set_option maxHeartbeats 1000000

namespace SoraSpec

/-! Shallow embedding of the sora2api gateway (services under src/services and
their collaborators), together with theorems settling the specification
claims about it.  Machine strings are modelled as Lean strings or lists of
characters, byte strings as lists of naturals, and wall-clock seconds as
integers.  Library primitives of the source (SHA3-512, the HTTP transport,
the database) enter the model as explicit parameters; everything written in
the repository itself is translated definitionally. -/

/-! ## Python string helpers -/

/-- Truthiness of an optional Python string: `None` and the empty string are
falsy, every other string is truthy. -/
def optStrTruthy : Option String → Bool
  | none => false
  | some s => s != ""

/-- Python `x or y` on optional strings: yields the first operand when it is
truthy, otherwise the second operand (even when that one is falsy). -/
def pyOr (a b : Option String) : Option String :=
  if optStrTruthy a then a else b

/-! ## FileCache (src/services/file_cache.py) -/

/-- Observable outcome of one `FileCache.download_and_cache` call. -/
structure CacheCallResult where
  cacheHit : Bool
  removedExisting : Bool
  downloaded : Bool
  deriving Repr, DecidableEq

/-- `FileCache._generate_cache_filename` (file_cache.py lines 98-118): the md5
hex digest of the url (passed in here, since md5 is a library call) followed
by an extension chosen from the media type. -/
def generateCacheFilename (md5hex : String) (mediaType : String) : String :=
  md5hex ++ (if mediaType = "video" then ".mp4" else ".png")

/-- Cache decision logic of `FileCache.download_and_cache` (file_cache.py
lines 120-172): when the file exists and its mtime age is below the
configured timeout the call is a cache hit; otherwise the stale file is
unlinked and the content is downloaded and rewritten.  `now` and `mtime` are
wall-clock seconds. -/
def downloadAndCache (defaultTimeout : Int) (fileExists : Bool)
    (now mtime : Int) : CacheCallResult :=
  if fileExists then
    let fileAge := now - mtime
    if fileAge < defaultTimeout then
      { cacheHit := true, removedExisting := false, downloaded := false }
    else
      { cacheHit := false, removedExisting := true, downloaded := true }
  else
    { cacheHit := false, removedExisting := false, downloaded := true }

/-- Per-file decision of `FileCache._cleanup_expired_files` (file_cache.py
lines 62-96): with the sentinel timeout `-1` the sweep is skipped entirely,
otherwise a file is removed when its age exceeds the timeout. -/
def cleanupRemovesFile (defaultTimeout : Int) (now mtime : Int) : Bool :=
  if defaultTimeout = -1 then false
  else decide (now - mtime > defaultTimeout)

/-! ## ProxyManager (src/services/proxy_manager.py) and the proxy filter of
`SoraClient._make_request` (src/services/sora_client.py lines 300-314) -/

/-- The slice of a credential row consulted by `ProxyManager.get_proxy_url`. -/
structure PMToken where
  proxyUrl : Option String
  deriving Repr, DecidableEq

/-- The global proxy configuration row. -/
structure ProxyConfig where
  proxyEnabled : Bool
  proxyUrl : Option String
  deriving Repr, DecidableEq

/-- `ProxyManager.get_proxy_url` (proxy_manager.py lines 12-37).
`proxyArg` is the explicit per-call proxy; `tokenLookup` is the result of
`db.get_token` for the supplied token id (`none` both when no id was passed
and when the row is missing). -/
def getProxyUrl (proxyArg : Option String) (tokenLookup : Option PMToken)
    (cfg : ProxyConfig) : Option String :=
  if optStrTruthy proxyArg then proxyArg
  else
    let fromToken :=
      match tokenLookup with
      | some t => if optStrTruthy t.proxyUrl then t.proxyUrl else none
      | none => none
    match fromToken with
    | some u => some u
    | none => if cfg.proxyEnabled && optStrTruthy cfg.proxyUrl then cfg.proxyUrl else none

/-- Endpoint filter of `_make_request` (sora_client.py lines 302-314): a
proxy may be attached only to creation-class endpoints. -/
def listIsPrefixOf : List Char → List Char → Bool
  | [], _ => true
  | _ :: _, [] => false
  | a :: as, b :: bs => a == b && listIsPrefixOf as bs

def createEndpointAllowed (endpoint : String) : Bool :=
  listIsPrefixOf ("/nf/create").toList endpoint.toList ||
    listIsPrefixOf ("/video_gen").toList endpoint.toList

/-- Proxy actually attached by `_make_request`: the resolved proxy when the
endpoint is creation-class, nothing otherwise. -/
def makeRequestProxy (endpoint : String) (proxyArg : Option String)
    (tokenLookup : Option PMToken) (cfg : ProxyConfig) : Option String :=
  let proxyUrl := getProxyUrl proxyArg tokenLookup cfg
  if createEndpointAllowed endpoint then proxyUrl else none

/-! ## LoadBalancer.select_token (src/services/load_balancer.py) -/

/-- The slice of a credential row consulted by the image branch of
`select_token`. -/
structure LBToken where
  id : Nat
  imageEnabled : Bool
  deriving Repr, DecidableEq

/-- Per-token predicate applied by the image branch of `select_token`
(load_balancer.py lines 99-110): the token must have image generation
enabled, must not be held by the token lock, and, when a concurrency manager
is wired in, must have a free image slot. -/
def imageEligible (locked canUseImage : Nat → Bool) (hasCM : Bool)
    (t : LBToken) : Bool :=
  t.imageEnabled && !locked t.id && (!hasCM || canUseImage t.id)

/-- `LoadBalancer.select_token` at `for_image_generation=True`,
`for_video_generation=False`, `require_pro=False` (load_balancer.py lines
55-116; these are the flag values of every image-flow call in the
repository).  `activeTokens` is the result of `get_active_tokens`; `locked`
and `canUseImage` are the answers of `TokenLock.is_locked` and
`ConcurrencyManager.can_use_image`; `random.choice` is modelled by an index
`pickIdx` reduced modulo the size of the surviving list. -/
def selectTokenForImage (activeTokens : List LBToken)
    (locked canUseImage : Nat → Bool) (hasCM : Bool) (pickIdx : Nat) :
    Option LBToken :=
  if activeTokens.isEmpty then none
  else
    let available := activeTokens.filter (imageEligible locked canUseImage hasCM)
    if available.isEmpty then none
    else available.get? (pickIdx % available.length)

/-! ## Storyboard prompts (src/services/sora_client.py lines 222-282)

Python regular expressions are embedded as explicit scanners with the same
match semantics on the patterns the source uses.  ASCII digit and whitespace
classes stand in for the Unicode classes of the `re` module. -/

/-- Decimal digit character, as rendered by Python `str` on a digit value. -/
def digitChar (k : Nat) : Char :=
  if k = 0 then '0' else if k = 1 then '1' else if k = 2 then '2'
  else if k = 3 then '3' else if k = 4 then '4' else if k = 5 then '5'
  else if k = 6 then '6' else if k = 7 then '7' else if k = 8 then '8'
  else '9'

/-- Decimal rendering with explicit fuel (a number has at most `n + 1`
digits). -/
def natDigitsAux : Nat → Nat → List Char
  | 0, _ => []
  | fuel + 1, n =>
    if n < 10 then [digitChar n]
    else natDigitsAux fuel (n / 10) ++ [digitChar (n % 10)]

/-- Decimal rendering of a natural number, as Python `str`. -/
def natDigits (n : Nat) : List Char :=
  natDigitsAux (n + 1) n

/-- Python `str.strip()` restricted to the ASCII whitespace class. -/
def pyStrip (l : List Char) : List Char :=
  ((l.dropWhile Char.isWhitespace).reverse.dropWhile Char.isWhitespace).reverse

/-- Python `str.find` for a single character: index of the first occurrence. -/
def firstIdxOf (c : Char) : List Char → Option Nat
  | [] => none
  | a :: as => if a = c then some 0 else (firstIdxOf c as).map (· + 1)

/-- Python `str.find` result (`-1` when absent). -/
def pyFind (c : Char) (l : List Char) : Int :=
  match firstIdxOf c l with
  | none => -1
  | some n => n

/-- Tail of the shot pattern: the match of `\s*([^\[]+)` with the
backtracking the `re` engine performs when the greedy whitespace run leaves
nothing for the mandatory non-bracket group.  Returns the captured scene and
the rest of the input after the whole match. -/
def sceneMatch (r5 : List Char) : Option (List Char × List Char) :=
  match r5.dropWhile Char.isWhitespace with
  | [] =>
    match (r5.takeWhile Char.isWhitespace).reverse with
    | [] => none
    | lw :: _ => some ([lw], [])
  | c :: tail =>
    if c = '[' then
      match (r5.takeWhile Char.isWhitespace).reverse with
      | [] => none
      | lw :: _ => some ([lw], c :: tail)
    else
      some ((c :: tail).takeWhile (fun x => x != '['),
        (c :: tail).dropWhile (fun x => x != '['))

/-- Consume an expected literal character sequence from the head of the
input, yielding the remainder. -/
def expectChars : List Char → List Char → Option (List Char)
  | [], rest => some rest
  | _ :: _, [] => none
  | e :: es, c :: cs => if c = e then expectChars es cs else none

/-- Closing part of the shot pattern: the literal `s]` followed by
`sceneMatch`; `dur` is the duration captured so far. -/
def shotClose (dur : List Char) (r : List Char) :
    Option ((List Char × List Char) × List Char) :=
  match expectChars ([ 's', ']' ]) r with
  | none => none
  | some r5 => (sceneMatch r5).map (fun pr => ((dur, pr.1), pr.2))

/-- Body of the shot pattern after the opening bracket:
`(\d+(?:\.\d+)?)s\]` followed by `sceneMatch`.  Returns the duration and
scene captures and the rest of the input. -/
def shotBody (r1 : List Char) : Option ((List Char × List Char) × List Char) :=
  if (r1.takeWhile Char.isDigit).isEmpty then none
  else
    match r1.dropWhile Char.isDigit with
    | c :: r3 =>
      if c = '.' then
        if (r3.takeWhile Char.isDigit).isEmpty then none
        else
          shotClose (r1.takeWhile Char.isDigit ++ '.' :: r3.takeWhile Char.isDigit)
            (r3.dropWhile Char.isDigit)
      else shotClose (r1.takeWhile Char.isDigit) (c :: r3)
    | [] => shotClose (r1.takeWhile Char.isDigit) []

/-- Attempt to match the full shot pattern
`\[(\d+(?:\.\d+)?)s\]\s*([^\[]+)` at the head of the input. -/
def shotMatchAt (cs : List Char) : Option ((List Char × List Char) × List Char) :=
  match cs with
  | [] => none
  | c :: r1 => if c = '[' then shotBody r1 else none

/-- Left-to-right, non-overlapping scan of `re.findall` for the shot
pattern; the fuel bounds the number of scan steps (one character or one
match each), so the list length is always enough. -/
def findShotsAux : Nat → List Char → List (List Char × List Char)
  | 0, _ => []
  | _ + 1, [] => []
  | fuel + 1, c :: rest =>
    match shotMatchAt (c :: rest) with
    | some (g, after) => g :: findShotsAux fuel after
    | none => findShotsAux fuel rest

/-- All `(duration, scene)` captures of the shot pattern in the prompt, in
order (`re.findall` in `format_storyboard_prompt`, sora_client.py line 258). -/
def findShots (cs : List Char) : List (List Char × List Char) :=
  findShotsAux cs.length cs

/-- Python `"\n\n".join`. -/
def joinWithSep (sep : List Char) : List (List Char) → List Char
  | [] => []
  | [x] => x
  | x :: y :: xs => x ++ sep ++ joinWithSep sep (y :: xs)

/-- Rendering of the numbered shot blocks (sora_client.py lines 270-274). -/
def formatShots (idx : Nat) : List (List Char × List Char) → List (List Char)
  | [] => []
  | (dur, scene) :: rest =>
    (("Shot ").toList ++ natDigits idx ++ (":\nduration: ").toList ++ dur ++
        ("sec\nScene: ").toList ++ pyStrip scene) :: formatShots (idx + 1) rest

/-- Overview block extracted before the first bracket
(sora_client.py lines 263-267). -/
def sbInstructions (p : List Char) : List Char :=
  if (0 : Int) < pyFind '[' p then pyStrip (p.take (pyFind '[' p).toNat) else []

/-- `SoraClient.format_storyboard_prompt` (sora_client.py lines 243-282). -/
def formatStoryboardPrompt (p : List Char) : List Char :=
  if (findShots p).isEmpty then p
  else
    let timeline := joinWithSep ("\n\n").toList (formatShots 1 (findShots p))
    if (sbInstructions p).isEmpty then timeline
    else
      ("current timeline:\n").toList ++ timeline ++
        ("\n\ninstructions:\n").toList ++ sbInstructions p

/-! ## Theorems for the file cache, proxy selection and credential selection -/

/-- C10: when the configured cache timeout is `-1`, `download_and_cache`
never returns a cache hit: for every call whose cache file is not dated in
the future, the age test fails, an existing file is deleted, and the content
is re-downloaded and rewritten; moreover the eviction sweep never removes a
file under this sentinel. -/
theorem downloadAndCache_timeout_minus_one_never_hits
    (fileExists : Bool) (now mtime : Int) (hm : mtime ≤ now) :
    (downloadAndCache (-1) fileExists now mtime).cacheHit = false ∧
    (downloadAndCache (-1) fileExists now mtime).downloaded = true ∧
    (fileExists = true →
      (downloadAndCache (-1) fileExists now mtime).removedExisting = true) ∧
    cleanupRemovesFile (-1) now mtime = false := by
  have hage : ¬ (now - mtime < (-1 : Int)) := by omega
  cases fileExists <;>
    simp [downloadAndCache, cleanupRemovesFile, hage]

/-- Witness for C10 at a concrete state: an existing cache file written five
seconds ago is deleted and re-downloaded. -/
theorem downloadAndCache_timeout_minus_one_never_hits_witness :
    ((0 : Int) ≤ 5) ∧
    ((downloadAndCache (-1) true 5 0).cacheHit = false ∧
     (downloadAndCache (-1) true 5 0).downloaded = true ∧
     (true = true → (downloadAndCache (-1) true 5 0).removedExisting = true) ∧
     cleanupRemovesFile (-1) 5 0 = false) :=
  ⟨by decide, downloadAndCache_timeout_minus_one_never_hits true 5 0 (by decide)⟩

/-- C7: a proxy is attached by `_make_request` only when the endpoint starts
with a creation-class prefix; every other endpoint is called without a proxy
even when one is resolved; and resolution gives an explicit per-call proxy
precedence over the credential proxy, which takes precedence over the
enabled global proxy. -/
theorem makeRequestProxy_spec :
    (∀ endpoint proxyArg tokenLookup cfg, createEndpointAllowed endpoint = false →
        makeRequestProxy endpoint proxyArg tokenLookup cfg = none) ∧
    (∀ endpoint proxyArg tokenLookup cfg, createEndpointAllowed endpoint = true →
        makeRequestProxy endpoint proxyArg tokenLookup cfg =
          getProxyUrl proxyArg tokenLookup cfg) ∧
    (∀ proxyArg tokenLookup cfg, optStrTruthy proxyArg = true →
        getProxyUrl proxyArg tokenLookup cfg = proxyArg) ∧
    (∀ proxyArg tok cfg, optStrTruthy proxyArg = false →
        optStrTruthy tok.proxyUrl = true →
        getProxyUrl proxyArg (some tok) cfg = tok.proxyUrl) ∧
    (∀ proxyArg tok cfg, optStrTruthy proxyArg = false →
        optStrTruthy tok.proxyUrl = false →
        getProxyUrl proxyArg (some tok) cfg =
          (if cfg.proxyEnabled && optStrTruthy cfg.proxyUrl then cfg.proxyUrl
           else none)) ∧
    (∀ proxyArg cfg, optStrTruthy proxyArg = false →
        getProxyUrl proxyArg none cfg =
          (if cfg.proxyEnabled && optStrTruthy cfg.proxyUrl then cfg.proxyUrl
           else none)) := by
  refine ⟨?_, ?_, ?_, ?_, ?_, ?_⟩
  · intro endpoint proxyArg tokenLookup cfg h
    simp [makeRequestProxy, h]
  · intro endpoint proxyArg tokenLookup cfg h
    simp [makeRequestProxy, h]
  · intro proxyArg tokenLookup cfg h
    simp [getProxyUrl, h]
  · intro proxyArg tok cfg h ht
    cases hu : tok.proxyUrl with
    | none => simp [optStrTruthy, hu] at ht
    | some u =>
      rw [hu] at ht
      simp [getProxyUrl, h, ht, hu]
  · intro proxyArg tok cfg h ht
    simp [getProxyUrl, h, ht]
  · intro proxyArg cfg h
    simp [getProxyUrl, h]

/-- Witness for C7 at concrete inputs: the polling endpoint bypasses a
configured proxy, the creation endpoint receives it, and each precedence
step fires on a concrete configuration. -/
theorem makeRequestProxy_spec_witness :
    makeRequestProxy ("/nf/pending/v2") (some ("http://p")) none
      { proxyEnabled := true, proxyUrl := some ("http://g") } = none ∧
    makeRequestProxy ("/nf/create") none none
      { proxyEnabled := true, proxyUrl := some ("http://g") } =
        some ("http://g") ∧
    getProxyUrl (some ("http://p")) (some { proxyUrl := some ("http://t") })
      { proxyEnabled := true, proxyUrl := some ("http://g") } =
        some ("http://p") ∧
    getProxyUrl none (some { proxyUrl := some ("http://t") })
      { proxyEnabled := true, proxyUrl := some ("http://g") } =
        some ("http://t") ∧
    getProxyUrl none (some { proxyUrl := none })
      { proxyEnabled := false, proxyUrl := some ("http://g") } = none ∧
    getProxyUrl none none
      { proxyEnabled := true, proxyUrl := some ("http://g") } =
        some ("http://g") := by
  refine ⟨?_, ?_, ?_, ?_, ?_, ?_⟩
  · exact makeRequestProxy_spec.1 _ _ _ _ (by decide)
  · exact (makeRequestProxy_spec.2.1 _ _ _ _ (by decide)).trans (by decide)
  · exact makeRequestProxy_spec.2.2.1 _ _ _ (by decide)
  · exact makeRequestProxy_spec.2.2.2.1 _ _ _ (by decide) (by decide)
  · exact (makeRequestProxy_spec.2.2.2.2.1 _ _ _ (by decide) (by decide)).trans
      (by decide)
  · exact (makeRequestProxy_spec.2.2.2.2.2 _ _ (by decide)).trans (by decide)

/-- C8: in image mode, `select_token` returns a token only from the set of
active tokens that have image generation enabled, are not held by the token
lock, and have a free image slot when a concurrency manager is present; the
choice ranges over exactly that surviving set (every survivor is returned
for some random draw), and `None` is returned precisely when the set is
empty. -/
theorem selectTokenForImage_spec
    (activeTokens : List LBToken) (locked canUseImage : Nat → Bool)
    (hasCM : Bool) :
    (∀ pickIdx t,
        selectTokenForImage activeTokens locked canUseImage hasCM pickIdx = some t →
        t ∈ activeTokens ∧ t.imageEnabled = true ∧ locked t.id = false ∧
          (hasCM = true → canUseImage t.id = true)) ∧
    (activeTokens.filter (imageEligible locked canUseImage hasCM) = [] ↔
        ∀ pickIdx,
          selectTokenForImage activeTokens locked canUseImage hasCM pickIdx = none) ∧
    (∀ t, t ∈ activeTokens.filter (imageEligible locked canUseImage hasCM) →
        ∃ pickIdx,
          selectTokenForImage activeTokens locked canUseImage hasCM pickIdx = some t) := by
  classical
  refine ⟨?_, ⟨?_, ?_⟩, ?_⟩
  · intro pickIdx t hsel
    by_cases hempty : activeTokens.isEmpty
    · simp [selectTokenForImage, hempty] at hsel
    · simp only [selectTokenForImage, hempty, if_neg, Bool.false_eq_true,
        not_false_eq_true, if_false] at hsel
      by_cases havail :
          (activeTokens.filter (imageEligible locked canUseImage hasCM)).isEmpty
      · simp [havail] at hsel
      · simp only [havail, Bool.false_eq_true, not_false_eq_true, if_false] at hsel
        have hmem := List.get?_mem hsel
        have hmem2 := List.mem_filter.mp hmem
        refine ⟨hmem2.1, ?_, ?_, ?_⟩
        · have := hmem2.2
          simp only [imageEligible, Bool.and_eq_true, Bool.or_eq_true,
            Bool.not_eq_true'] at this
          exact this.1.1
        · have := hmem2.2
          simp only [imageEligible, Bool.and_eq_true, Bool.or_eq_true,
            Bool.not_eq_true'] at this
          exact this.1.2
        · intro hcm
          have := hmem2.2
          simp only [imageEligible, hcm, Bool.and_eq_true, Bool.or_eq_true,
            Bool.not_eq_true'] at this
          rcases this.2 with h | h
          · cases h
          · exact h
  · intro hnil pickIdx
    by_cases hempty : activeTokens.isEmpty
    · simp [selectTokenForImage, hempty]
    · simp [selectTokenForImage, hempty, hnil]
  · intro hall
    by_cases hnil : activeTokens.filter (imageEligible locked canUseImage hasCM) = []
    · exact hnil
    · exfalso
      have hlen : 0 < (activeTokens.filter (imageEligible locked canUseImage hasCM)).length :=
        List.length_pos.mpr hnil
      have hempty : activeTokens.isEmpty = false := by
        cases htl : activeTokens with
        | nil => rw [htl] at hnil; simp at hnil
        | cons a l => simp
      have h0 := hall 0
      have hmod : 0 % (activeTokens.filter (imageEligible locked canUseImage hasCM)).length
          < (activeTokens.filter (imageEligible locked canUseImage hasCM)).length :=
        Nat.mod_lt _ hlen
      have hsome := List.get?_eq_get hmod
      simp only [selectTokenForImage, hempty, Bool.false_eq_true, not_false_eq_true,
        if_false, List.isEmpty_iff, hnil, hsome] at h0
      exact Option.noConfusion h0
  · intro t ht
    rcases List.mem_iff_get?.mp ht with ⟨n, hn⟩
    have hlen : n < (activeTokens.filter (imageEligible locked canUseImage hasCM)).length := by
      by_contra hge
      rw [List.get?_eq_none.mpr (Nat.le_of_not_lt hge)] at hn
      cases hn
    have hempty : activeTokens.isEmpty = false := by
      cases htl : activeTokens with
      | nil =>
        rw [htl] at ht
        simp at ht
      | cons a l => simp
    refine ⟨n, ?_⟩
    have hnil : (activeTokens.filter (imageEligible locked canUseImage hasCM)).isEmpty = false := by
      have := List.ne_nil_of_mem ht
      simp [List.isEmpty_iff, this]
    simp only [selectTokenForImage, hempty, Bool.false_eq_true, not_false_eq_true,
      if_false, hnil]
    rwa [Nat.mod_eq_of_lt hlen]

/-- Witness for C8 at a concrete pool: a single eligible token is selected
and carries the claimed properties. -/
theorem selectTokenForImage_spec_witness :
    selectTokenForImage [{ id := 7, imageEnabled := true }]
        (fun _ => false) (fun _ => true) true 0 =
      some { id := 7, imageEnabled := true } ∧
    ({ id := 7, imageEnabled := true } : LBToken) ∈
        [({ id := 7, imageEnabled := true } : LBToken)] ∧
    (true : Bool) = true ∧ (false : Bool) = false ∧
    ((true : Bool) = true → (true : Bool) = true) := by
  have h := (selectTokenForImage_spec [{ id := 7, imageEnabled := true }]
      (fun _ => false) (fun _ => true) true).1 0
      { id := 7, imageEnabled := true } (by decide)
  exact ⟨by decide, h.1, h.2.1, h.2.2.1, h.2.2.2⟩

/-! ## Storyboard idempotence (claim C9) -/

theorem ne_bracket_of_all {l : List Char}
    (hall : l.all (fun c => c != '[') = true) : ∀ c ∈ l, c ≠ '[' := by
  intro c hc heq
  subst heq
  have := List.all_eq_true.mp hall _ hc
  simp at this

theorem digitChar_ne_bracket (k : Nat) : digitChar k ≠ '[' := by
  unfold digitChar
  split_ifs <;> decide

theorem natDigitsAux_ne_bracket :
    ∀ fuel n, ∀ c ∈ natDigitsAux fuel n, c ≠ '[' := by
  intro fuel
  induction fuel with
  | zero =>
    intro n c hc
    simp [natDigitsAux] at hc
  | succ m ih =>
    intro n c hc
    rw [natDigitsAux] at hc
    split_ifs at hc with h
    · simp only [List.mem_singleton] at hc
      subst hc
      exact digitChar_ne_bracket n
    · rcases List.mem_append.mp hc with h1 | h1
      · exact ih _ c h1
      · simp only [List.mem_singleton] at h1
        subst h1
        exact digitChar_ne_bracket (n % 10)

theorem natDigits_ne_bracket (n : Nat) : ∀ c ∈ natDigits n, c ≠ '[' :=
  natDigitsAux_ne_bracket (n + 1) n

theorem mem_pyStrip {x : Char} {l : List Char} (h : x ∈ pyStrip l) : x ∈ l := by
  unfold pyStrip at h
  have h1 := List.mem_reverse.mp h
  have h2 := (List.dropWhile_sublist _).subset h1
  have h3 := List.mem_reverse.mp h2
  exact (List.dropWhile_sublist _).subset h3

theorem pyStrip_ne_bracket {l : List Char} (h : ∀ c ∈ l, c ≠ '[') :
    ∀ c ∈ pyStrip l, c ≠ '[' :=
  fun c hc => h c (mem_pyStrip hc)

theorem sceneMatch_shape (r5 : List Char) (pr : List Char × List Char)
    (h : sceneMatch r5 = some pr) :
    (∃ lw tl, (r5.takeWhile Char.isWhitespace).reverse = lw :: tl ∧ pr.1 = [lw]) ∨
    (∃ q : List Char, pr.1 = q.takeWhile (fun x => x != '[')) := by
  unfold sceneMatch at h
  split at h
  · split at h
    · exact Option.noConfusion h
    next lw tl hw =>
      left
      refine ⟨lw, tl, hw, ?_⟩
      cases h
      rfl
  next c tail _heq =>
    split at h
    · split at h
      · exact Option.noConfusion h
      next lw tl hw =>
        left
        refine ⟨lw, tl, hw, ?_⟩
        cases h
        rfl
    · right
      refine ⟨c :: tail, ?_⟩
      cases h
      rfl

theorem sceneMatch_scene_ne_bracket {r5 scene rest : List Char}
    (h : sceneMatch r5 = some (scene, rest)) : ∀ c ∈ scene, c ≠ '[' := by
  rcases sceneMatch_shape r5 (scene, rest) h with ⟨lw, tl, hw, hs⟩ | ⟨q, hs⟩
  · simp only at hs
    subst hs
    intro c hc
    simp only [List.mem_singleton] at hc
    subst hc
    intro heq
    subst heq
    have hlwmem : '[' ∈ (r5.takeWhile Char.isWhitespace).reverse := by
      rw [hw]; exact List.mem_cons_self _ _
    have hws := List.mem_takeWhile_imp (List.mem_reverse.mp hlwmem)
    exact absurd hws (by decide)
  · simp only at hs
    subst hs
    intro c hc heq
    have := List.mem_takeWhile_imp hc
    subst heq
    simp at this

theorem shotClose_groups {dur r : List Char} {d s a : List Char}
    (h : shotClose dur r = some ((d, s), a)) :
    d = dur ∧ ∀ c ∈ s, c ≠ '[' := by
  unfold shotClose at h
  cases he : expectChars ([ 's', ']' ]) r with
  | none => rw [he] at h; cases h
  | some r5 =>
    rw [he] at h
    rw [Option.map_eq_some'] at h
    obtain ⟨⟨sc, rst⟩, hsc, heq⟩ := h
    rw [Prod.mk.injEq, Prod.mk.injEq] at heq
    obtain ⟨⟨hd, hs⟩, _ha⟩ := heq
    subst hd
    subst hs
    exact ⟨rfl, sceneMatch_scene_ne_bracket hsc⟩

theorem shotBody_groups {r1 : List Char} {d s a : List Char}
    (h : shotBody r1 = some ((d, s), a)) :
    (∀ c ∈ d, c ≠ '[') ∧ (∀ c ∈ s, c ≠ '[') := by
  have hdig : ∀ (q : List Char), ∀ x ∈ q.takeWhile Char.isDigit, x ≠ '[' := by
    intro q x hx heq
    have := List.mem_takeWhile_imp hx
    subst heq
    exact absurd this (by decide)
  unfold shotBody at h
  split at h
  · exact Option.noConfusion h
  · split at h
    · split at h
      · split at h
        · exact Option.noConfusion h
        next r3 _heq _hdot _h2 =>
          obtain ⟨hd, hs⟩ := shotClose_groups h
          subst hd
          refine ⟨?_, hs⟩
          intro c hc
          rcases List.mem_append.mp hc with hcm | hcm
          · exact hdig r1 c hcm
          · rcases List.mem_cons.mp hcm with rfl | hcm
            · decide
            · exact hdig r3 c hcm
      · obtain ⟨hd, hs⟩ := shotClose_groups h
        subst hd
        exact ⟨hdig r1, hs⟩
    · obtain ⟨hd, hs⟩ := shotClose_groups h
      subst hd
      exact ⟨hdig r1, hs⟩

theorem shotMatchAt_none_of_ne_bracket {c : Char} {rest : List Char}
    (h : c ≠ '[') : shotMatchAt (c :: rest) = none := by
  simp [shotMatchAt, h]

theorem shotMatchAt_groups {cs : List Char} {g : List Char × List Char}
    {a : List Char} (h : shotMatchAt cs = some (g, a)) :
    (∀ c ∈ g.1, c ≠ '[') ∧ (∀ c ∈ g.2, c ≠ '[') := by
  cases cs with
  | nil => exact Option.noConfusion h
  | cons c r1 =>
    by_cases hc : c = '['
    · rw [shotMatchAt, if_pos hc] at h
      rcases g with ⟨d, s⟩
      exact shotBody_groups h
    · rw [shotMatchAt_none_of_ne_bracket hc] at h
      exact Option.noConfusion h

theorem findShotsAux_eq_nil {cs : List Char} (h : ∀ c ∈ cs, c ≠ '[') :
    ∀ fuel, findShotsAux fuel cs = [] := by
  intro fuel
  induction fuel generalizing cs with
  | zero => rfl
  | succ n ih =>
    cases cs with
    | nil => rfl
    | cons c rest =>
      have hc : c ≠ '[' := h c (List.mem_cons_self _ _)
      simp only [findShotsAux, shotMatchAt_none_of_ne_bracket hc]
      exact ih (fun x hx => h x (List.mem_cons_of_mem _ hx))

theorem findShotsAux_groups {fuel : Nat} {cs : List Char} :
    ∀ pr ∈ findShotsAux fuel cs,
      (∀ c ∈ pr.1, c ≠ '[') ∧ (∀ c ∈ pr.2, c ≠ '[') := by
  induction fuel generalizing cs with
  | zero =>
    intro pr hpr
    simp [findShotsAux] at hpr
  | succ n ih =>
    intro pr hpr
    cases cs with
    | nil => simp [findShotsAux] at hpr
    | cons c rest =>
      simp only [findShotsAux] at hpr
      cases hm : shotMatchAt (c :: rest) with
      | none =>
        rw [hm] at hpr
        exact ih pr hpr
      | some ga =>
        rw [hm] at hpr
        rcases ga with ⟨g, after⟩
        simp only [List.mem_cons] at hpr
        rcases hpr with rfl | hpr
        · exact shotMatchAt_groups hm
        · exact ih pr hpr

theorem findShots_groups {cs : List Char} :
    ∀ pr ∈ findShots cs, (∀ c ∈ pr.1, c ≠ '[') ∧ (∀ c ∈ pr.2, c ≠ '[') :=
  findShotsAux_groups

theorem mem_joinWithSep {sep : List Char} {ls : List (List Char)} {c : Char}
    (h : c ∈ joinWithSep sep ls) : c ∈ sep ∨ ∃ x ∈ ls, c ∈ x := by
  induction ls with
  | nil => simp [joinWithSep] at h
  | cons x xs ih =>
    cases xs with
    | nil =>
      simp only [joinWithSep] at h
      exact Or.inr ⟨x, by simp, h⟩
    | cons y ys =>
      simp only [joinWithSep, List.mem_append] at h
      rcases h with (h | h) | h
      · exact Or.inr ⟨x, by simp, h⟩
      · exact Or.inl h
      · rcases ih h with h2 | ⟨z, hz, hcz⟩
        · exact Or.inl h2
        · exact Or.inr ⟨z, List.mem_cons_of_mem _ hz, hcz⟩

theorem formatShots_ne_bracket {ms : List (List Char × List Char)}
    (hms : ∀ pr ∈ ms, (∀ c ∈ pr.1, c ≠ '[') ∧ (∀ c ∈ pr.2, c ≠ '[')) :
    ∀ idx, ∀ x ∈ formatShots idx ms, ∀ c ∈ x, c ≠ '[' := by
  induction ms with
  | nil =>
    intro idx x hx
    simp [formatShots] at hx
  | cons pr rest ih =>
    intro idx x hx
    rcases pr with ⟨dur, scene⟩
    simp only [formatShots, List.mem_cons] at hx
    have hpr := hms (dur, scene) (List.mem_cons_self _ _)
    rcases hx with rfl | hx
    · intro c hc
      simp only [List.mem_append] at hc
      rcases hc with ((((hc | hc) | hc) | hc) | hc) | hc
      · exact ne_bracket_of_all (by decide) c hc
      · exact natDigits_ne_bracket idx c hc
      · exact ne_bracket_of_all (by decide) c hc
      · exact hpr.1 c hc
      · exact ne_bracket_of_all (by decide) c hc
      · exact pyStrip_ne_bracket hpr.2 c hc
    · exact ih (fun q hq => hms q (List.mem_cons_of_mem _ hq)) (idx + 1) x hx

theorem firstIdxOf_take {c : Char} {l : List Char} {n : Nat}
    (h : firstIdxOf c l = some n) : ∀ x ∈ l.take n, x ≠ c := by
  induction l generalizing n with
  | nil => exact Option.noConfusion h
  | cons a as ih =>
    by_cases ha : a = c
    · rw [firstIdxOf, if_pos ha] at h
      cases h
      simp
    · rw [firstIdxOf, if_neg ha] at h
      rw [Option.map_eq_some'] at h
      obtain ⟨m, hm, rfl⟩ := h
      intro x hx
      simp only [List.take_succ_cons, List.mem_cons] at hx
      rcases hx with rfl | hx
      · exact ha
      · exact ih hm x hx

theorem sbInstructions_ne_bracket (p : List Char) :
    ∀ c ∈ sbInstructions p, c ≠ '[' := by
  unfold sbInstructions
  split_ifs with hpos
  · intro c hc
    have hmem := mem_pyStrip hc
    cases hf : firstIdxOf '[' p with
    | none =>
      rw [pyFind, hf] at hpos
      exact absurd hpos (by decide)
    | some n =>
      have htn : (pyFind '[' p).toNat = n := by
        rw [pyFind, hf]
        exact Int.toNat_natCast n
      rw [htn] at hmem
      exact firstIdxOf_take hf c hmem
  · intro c hc
    simp at hc

theorem formatStoryboardPrompt_no_shots {q : List Char}
    (h : findShots q = []) : formatStoryboardPrompt q = q := by
  unfold formatStoryboardPrompt
  rw [h]
  rfl

theorem formatStoryboardPrompt_ne_bracket {p : List Char}
    (h : (findShots p).isEmpty = false) :
    ∀ c ∈ formatStoryboardPrompt p, c ≠ '[' := by
  have htime : ∀ c ∈ joinWithSep ("\n\n").toList (formatShots 1 (findShots p)),
      c ≠ '[' := by
    intro c hc
    rcases mem_joinWithSep hc with hsep | ⟨x, hx, hcx⟩
    · exact ne_bracket_of_all (by decide) c hsep
    · exact formatShots_ne_bracket findShots_groups 1 x hx c hcx
  intro c hc
  unfold formatStoryboardPrompt at hc
  rw [h] at hc
  simp only [Bool.false_eq_true, if_false] at hc
  split_ifs at hc with hins
  · exact htime c hc
  · simp only [List.mem_append] at hc
    rcases hc with ((hc | hc) | hc) | hc
    · exact ne_bracket_of_all (by decide) c hc
    · exact htime c hc
    · exact ne_bracket_of_all (by decide) c hc
    · exact sbInstructions_ne_bracket p c hc

/-- C9: `format_storyboard_prompt` is idempotent on every prompt string: a
formatted output contains no `[` character, so it has no time-bracket shot
marker, re-scanning it finds no matches, and formatting it again returns it
unchanged; prompts without matches are returned verbatim in the first
place. -/
theorem formatStoryboardPrompt_idempotent (p : List Char) :
    formatStoryboardPrompt (formatStoryboardPrompt p) = formatStoryboardPrompt p := by
  by_cases h : (findShots p).isEmpty
  · have hp : formatStoryboardPrompt p = p := by
      unfold formatStoryboardPrompt
      rw [if_pos h]
    rw [hp]
    exact hp
  · have h2 : (findShots p).isEmpty = false := by
      exact Bool.not_eq_true _ ▸ eq_false_of_ne_true h
    have hnb := formatStoryboardPrompt_ne_bracket h2
    have hnil : findShots (formatStoryboardPrompt p) = [] :=
      findShotsAux_eq_nil hnb _
    exact formatStoryboardPrompt_no_shots hnil

/-! ## Compact JSON values and serialization

The source serializes and parses JSON through the `json` library; the model
uses an explicit value type with a compact serializer matching
`json.dumps(..., separators=(",", ":"), ensure_ascii=False)`. -/

def lbraceChar : Char := Char.ofNat 123

def rbraceChar : Char := Char.ofNat 125

inductive Json where
  | null
  | boolean (b : Bool)
  | num (n : Int)
  | str (s : String)
  | arr (l : List Json)
  | obj (l : List (String × Json))
  deriving Repr

/-- Decimal rendering of an integer, as Python `str`. -/
def intDigits (n : Int) : List Char :=
  if n < 0 then '-' :: natDigits (-n).toNat else natDigits n.toNat

/-- String-body escaping of `json.dumps` for the characters the repository
feeds it (quote, backslash and the common control shorthands); other
characters pass through unescaped (`ensure_ascii=False`). -/
def jsonEscape : List Char → List Char
  | [] => []
  | c :: cs =>
    (if c = '"' then [ '\\', '"' ]
     else if c = '\\' then [ '\\', '\\' ]
     else if c = '\n' then [ '\\', 'n' ]
     else if c = '\t' then [ '\\', 't' ]
     else if c = '\r' then [ '\\', 'r' ]
     else [c]) ++ jsonEscape cs

mutual

/-- Compact serializer (`json.dumps` with separators `(",", ":")`). -/
def jsonDumps : Json → List Char
  | .null => ("null").toList
  | .boolean true => ("true").toList
  | .boolean false => ("false").toList
  | .num n => intDigits n
  | .str s => '"' :: jsonEscape s.toList ++ [ '"' ]
  | .arr l => '[' :: jsonDumpsArr l ++ [ ']' ]
  | .obj l => lbraceChar :: jsonDumpsObj l ++ [rbraceChar]

def jsonDumpsArr : List Json → List Char
  | [] => []
  | [x] => jsonDumps x
  | x :: y :: xs => jsonDumps x ++ ',' :: jsonDumpsArr (y :: xs)

def jsonDumpsObj : List (String × Json) → List Char
  | [] => []
  | [(k, v)] => '"' :: jsonEscape k.toList ++ [ '"', ':' ] ++ jsonDumps v
  | (k, v) :: e :: es =>
    '"' :: jsonEscape k.toList ++ [ '"', ':' ] ++ jsonDumps v ++
      ',' :: jsonDumpsObj (e :: es)

end

/-! ## Proof of work (`SoraClient._solve_pow`, sora_client.py lines 91-115) -/

/-- UTF-8 bytes of one character. -/
def utf8Bytes (c : Char) : List Nat :=
  let n := c.toNat
  if n < 128 then [n]
  else if n < 2048 then [192 + n / 64, 128 + n % 64]
  else if n < 65536 then [224 + n / 4096, 128 + (n / 64) % 64, 128 + n % 64]
  else [240 + n / 262144, 128 + (n / 4096) % 64, 128 + (n / 64) % 64, 128 + n % 64]

/-- Python `str.encode()`. -/
def utf8Encode (l : List Char) : List Nat :=
  l.flatMap utf8Bytes

def b64Alphabet : List Char :=
  ("ABCDEFGHIJKLMNOPQRSTUVWXYZabcdefghijklmnopqrstuvwxyz0123456789+/").toList

def b64Char (k : Nat) : Char := b64Alphabet.getD k '='

/-- `base64.b64encode` on a byte string, as the list of the ASCII characters
of its output. -/
def base64Encode : List Nat → List Char
  | a :: b :: c :: rest =>
    b64Char (a / 4) :: b64Char (a % 4 * 16 + b / 16) ::
      b64Char (b % 16 * 4 + c / 64) :: b64Char (c % 64) :: base64Encode rest
  | [a, b] => [b64Char (a / 4), b64Char (a % 4 * 16 + b / 16), b64Char (b % 16 * 4), '=']
  | [a] => [b64Char (a / 4), b64Char (a % 4 * 16), '=', '=']
  | [] => []

def hexDigitVal (c : Char) : Option Nat :=
  if 48 ≤ c.toNat ∧ c.toNat ≤ 57 then some (c.toNat - 48)
  else if 97 ≤ c.toNat ∧ c.toNat ≤ 102 then some (c.toNat - 87)
  else if 65 ≤ c.toNat ∧ c.toNat ≤ 70 then some (c.toNat - 55)
  else none

/-- `bytes.fromhex`, failing on odd length or non-hex characters. -/
def hexToBytes : List Char → Option (List Nat)
  | [] => some []
  | [_] => none
  | a :: b :: rest =>
    match hexDigitVal a, hexDigitVal b, hexToBytes rest with
    | some x, some y, some r => some ((x * 16 + y) :: r)
    | _, _, _ => none

/-- Python `bytes` comparison `x <= y`: lexicographic with the prefix rule. -/
def pyBytesLe : List Nat → List Nat → Bool
  | [], _ => true
  | _ :: _, [] => false
  | a :: as, b :: bs => if a < b then true else if b < a then false else pyBytesLe as bs

/-- Static fragment before the first dynamic slot:
`json.dumps(config_list[:3])[:-1] + ","` encoded (sora_client.py line 98). -/
def powStatic1 (config : List Json) : List Nat :=
  utf8Encode ((jsonDumps (Json.arr (config.take 3))).dropLast ++ [ ',' ])

/-- Static fragment between the dynamic slots:
`"," + json.dumps(config_list[4:9])[1:-1] + ","` encoded (line 99). -/
def powStatic2 (config : List Json) : List Nat :=
  utf8Encode ([ ',' ] ++
    ((jsonDumps (Json.arr ((config.drop 4).take 5))).drop 1).dropLast ++ [ ',' ])

/-- Static fragment after the second dynamic slot:
`"," + json.dumps(config_list[10:])[1:]` encoded (line 100). -/
def powStatic3 (config : List Json) : List Nat :=
  utf8Encode ([ ',' ] ++ (jsonDumps (Json.arr (config.drop 10))).drop 1)

/-- Candidate byte string hashed at counter `i`: the static fragments with
`str(i)` and `str(i >> 1)` spliced into the dynamic slots (lines 102-106). -/
def powCandidate (config : List Json) (i : Nat) : List Nat :=
  powStatic1 config ++ utf8Encode (natDigits i) ++ powStatic2 config ++
    utf8Encode (natDigits (i / 2)) ++ powStatic3 config

def powMaxIteration : Nat := 500000

/-- Search loop of `_solve_pow`: try counters `i, i+1, ...` while fuel
remains, returning the base64 solution and the successful counter. -/
def solvePowAux (hash : List Nat → List Nat) (seedB : List Nat) (diffLen : Nat)
    (target : List Nat) (config : List Json) :
    Nat → Nat → Option (List Char × Nat)
  | _, 0 => none
  | i, fuel + 1 =>
    let b64c := base64Encode (powCandidate config i)
    if pyBytesLe ((hash (seedB ++ utf8Encode b64c)).take diffLen) target then
      some (b64c, i)
    else solvePowAux hash seedB diffLen target config (i + 1) fuel

/-- Failure token returned when the search space is exhausted
(sora_client.py line 114). -/
def powErrorToken (seed : List Char) : List Char :=
  ("wQ8Lk5FbGpA2NcR9dShT6gYjU7VxZ4D").toList ++
    base64Encode (utf8Encode ('"' :: seed ++ [ '"' ]))

/-- `SoraClient._solve_pow` (sora_client.py lines 91-115).  `hash` stands for
the library call `hashlib.sha3_512(...).digest()`; the result is `none` when
the difficulty is not a valid even-length hex string (where the source would
raise `ValueError` inside `bytes.fromhex`). -/
def solvePow (hash : List Nat → List Nat) (seed : List Char)
    (difficulty : List Char) (config : List Json) : Option (List Char × Bool) :=
  match hexToBytes difficulty with
  | none => none
  | some target =>
    match solvePowAux hash (utf8Encode seed) (difficulty.length / 2) target
        config 0 powMaxIteration with
    | some (sol, _) => some (sol, true)
    | none => some (powErrorToken seed, false)

/-! ## PoW correctness (claim C5) -/

theorem utf8Encode_append (a b : List Char) :
    utf8Encode (a ++ b) = utf8Encode a ++ utf8Encode b := by
  simp [utf8Encode]

theorem solvePowAux_spec (hash : List Nat → List Nat) (seedB : List Nat)
    (diffLen : Nat) (target : List Nat) (config : List Json) :
    ∀ fuel i sol j,
      solvePowAux hash seedB diffLen target config i fuel = some (sol, j) →
      i ≤ j ∧ j < i + fuel ∧ sol = base64Encode (powCandidate config j) ∧
        pyBytesLe ((hash (seedB ++ utf8Encode sol)).take diffLen) target = true := by
  intro fuel
  induction fuel with
  | zero => intro i sol j h; exact Option.noConfusion h
  | succ n ih =>
    intro i sol j h
    rw [solvePowAux] at h
    split at h
    · rw [Option.some.injEq, Prod.mk.injEq] at h
      obtain ⟨hsol, hj⟩ := h
      subst hsol
      subst hj
      refine ⟨le_refl _, by omega, rfl, ?_⟩
      next hcond => exact hcond
    · have := ih (i + 1) sol j h
      exact ⟨by omega, by omega, this.2.2.1, this.2.2.2⟩

theorem intDigits_ofNat (k : Nat) : intDigits (Int.ofNat k) = natDigits k := by
  rw [intDigits]
  split_ifs with h
  · exact absurd h (not_lt.mpr (Int.ofNat_nonneg k))
  · simp

theorem dropLast_cons_concat (c : Char) (x : List Char) (d : Char) :
    (c :: (x ++ [d])).dropLast = c :: x := by
  rw [show (c :: (x ++ [d])) = (c :: x) ++ [d] from rfl, List.dropLast_concat]

theorem powCandidate_eq_dumps {config : List Json} (hlen : 11 ≤ config.length)
    (i : Nat) :
    powCandidate config i =
      utf8Encode (jsonDumps (Json.arr
        ((config.set 3 (Json.num (Int.ofNat i))).set 9
          (Json.num (Int.ofNat (i / 2)))))) := by
  rcases config with
    _ | ⟨c0, _ | ⟨c1, _ | ⟨c2, _ | ⟨c3, _ | ⟨c4, _ | ⟨c5, _ | ⟨c6, _ | ⟨c7,
      _ | ⟨c8, _ | ⟨c9, _ | ⟨c10, rest⟩⟩⟩⟩⟩⟩⟩⟩⟩⟩⟩
  all_goals try (exfalso; simp only [List.length_cons, List.length_nil] at hlen; omega)
  rw [powCandidate, powStatic1, powStatic2, powStatic3, ← utf8Encode_append,
    ← utf8Encode_append, ← utf8Encode_append, ← utf8Encode_append]
  congr 1
  simp only [List.set, List.take, List.drop, jsonDumps, List.append_eq,
    List.nil_append, List.cons_append, List.drop_succ_cons, List.drop_zero,
    dropLast_cons_concat, List.dropLast_concat]
  simp only [jsonDumpsArr, jsonDumps, intDigits_ofNat]
  simp [List.append_assoc]

/-- C5: whenever `_solve_pow` returns `(solution, True)` for a seed and an
even-length hex difficulty, the solution is the base64 encoding of the
compact JSON serialization of the fingerprint configuration with indices 3
and 9 set to the decimal renderings of some counter `i < 500000` and of
`i >> 1`, and the first `len(difficulty)/2` bytes of the hash of the seed
concatenated with that base64 string compare `<=` to the difficulty
bytes. -/
theorem solvePow_correct (hash : List Nat → List Nat)
    (seed difficulty : List Char) (config : List Json) (target : List Nat)
    (sol : List Char) (hlen : 11 ≤ config.length)
    (hhex : hexToBytes difficulty = some target)
    (hsol : solvePow hash seed difficulty config = some (sol, true)) :
    ∃ i, i < powMaxIteration ∧
      sol = base64Encode (utf8Encode (jsonDumps (Json.arr
        ((config.set 3 (Json.num (Int.ofNat i))).set 9
          (Json.num (Int.ofNat (i / 2))))))) ∧
      pyBytesLe ((hash (utf8Encode seed ++ utf8Encode sol)).take
        (difficulty.length / 2)) target = true := by
  unfold solvePow at hsol
  rw [hhex] at hsol
  cases haux : solvePowAux hash (utf8Encode seed) (difficulty.length / 2)
      target config 0 powMaxIteration with
  | none => simp [haux] at hsol
  | some p =>
    rcases p with ⟨s0, j⟩
    simp only [haux, Option.some.injEq, Prod.mk.injEq, and_true] at hsol
    subst hsol
    obtain ⟨_, hlt, hb64, hhash⟩ :=
      solvePowAux_spec hash (utf8Encode seed) (difficulty.length / 2) target
        config powMaxIteration 0 s0 j haux
    refine ⟨j, by omega, ?_, hhash⟩
    rw [hb64, powCandidate_eq_dumps hlen]

/-- Witness for C5: with a constant hash, the loop succeeds at counter 0 on
an 11-element configuration and difficulty `0f`, and the conclusion holds
there. -/
theorem solvePow_correct_witness :
    ((11 : Nat) ≤ (List.replicate 11 Json.null).length) ∧
    hexToBytes ([ '0', 'f' ]) = some [15] ∧
    solvePow (fun _ => [0]) [] ([ '0', 'f' ]) (List.replicate 11 Json.null) =
      some (base64Encode (powCandidate (List.replicate 11 Json.null) 0), true) ∧
    (∃ i, i < powMaxIteration ∧
      base64Encode (powCandidate (List.replicate 11 Json.null) 0) =
        base64Encode (utf8Encode (jsonDumps (Json.arr
          (((List.replicate 11 Json.null).set 3 (Json.num (Int.ofNat i))).set 9
            (Json.num (Int.ofNat (i / 2))))))) ∧
      pyBytesLe (((fun _ => [0]) (utf8Encode [] ++
          utf8Encode (base64Encode (powCandidate (List.replicate 11 Json.null) 0)))).take
        (([ '0', 'f' ] : List Char).length / 2)) [15] = true) :=
  ⟨by decide, by decide,
   rfl,
   solvePow_correct (fun _ => [0]) [] ([ '0', 'f' ])
     (List.replicate 11 Json.null) [15]
     (base64Encode (powCandidate (List.replicate 11 Json.null) 0))
     (by decide) (by decide) rfl⟩

/-! ## Sentinel token builder (`SoraClient._build_sentinel_token`,
sora_client.py lines 134-171) -/

structure ProofOfWorkInfo where
  required : Bool := false
  seed : Option String := none
  difficulty : Option String := none
  deriving Repr, DecidableEq

structure SentinelResp where
  proofofwork : Option ProofOfWorkInfo := none
  turnstileDx : Option String := none
  ctoken : Option String := none
  deriving Repr, DecidableEq

inductive PyError where
  | unboundLocal (name : String)
  deriving Repr, DecidableEq

/-- Fields of the assembled `openai-sentinel-token` payload
(sora_client.py lines 164-170). -/
structure SentinelPayload where
  p : String
  t : String
  c : String
  id : String
  flow : String
  deriving Repr, DecidableEq

/-- `_build_sentinel_token`.  The Python locals `seed` and `difficulty` are
assigned only inside the `if proofofwork.get("required"):` branch, while the
`if seed and difficulty:` test stands dedented outside it (lines 147-150);
reading an unassigned local raises `UnboundLocalError`, modelled by the
error result.  `solve` stands for the `_solve_pow` executor call, whose
surrounding `try` only guards the solving itself. -/
def buildSentinelToken (flow reqId powToken : String) (resp : SentinelResp)
    (solve : String → String → String × Bool) :
    Except PyError SentinelPayload :=
  let proofofwork := resp.proofofwork.getD {}
  let seedVar : Option String :=
    if proofofwork.required then some (proofofwork.seed.getD ("")) else none
  let diffVar : Option String :=
    if proofofwork.required then some (proofofwork.difficulty.getD ("")) else none
  match seedVar, diffVar with
  | none, _ => .error (.unboundLocal ("seed"))
  | some _, none => .error (.unboundLocal ("difficulty"))
  | some seed, some difficulty =>
    let finalPow :=
      if seed != "" && difficulty != "" then "gAAAAAB" ++ (solve seed difficulty).1
      else powToken
    .ok { p := finalPow, t := resp.turnstileDx.getD (""),
          c := resp.ctoken.getD (""), id := reqId, flow := flow }

/-- C4: the claim states that when `proofofwork.required` is false or absent
the builder returns normally and reuses the initial PoW token; on the code,
the dedented `if seed and difficulty:` reads the unassigned local `seed` on
exactly this branch, so the call raises `UnboundLocalError` instead of
returning. -/
theorem buildSentinelToken_not_required_raises
    (flow reqId powToken : String) (resp : SentinelResp)
    (solve : String → String → String × Bool)
    (hreq : (resp.proofofwork.getD {}).required = false) :
    buildSentinelToken flow reqId powToken resp solve =
      .error (.unboundLocal ("seed")) := by
  simp only [buildSentinelToken, hreq, Bool.false_eq_true, if_false]

/-- Witness for C4 at the concrete sentinel response in which the
`proofofwork` object is absent entirely. -/
theorem buildSentinelToken_not_required_raises_witness :
    (({} : SentinelResp).proofofwork.getD {}).required = false ∧
    buildSentinelToken ("sora_2_create_task") ("rid") ("gAAAAACx") {}
        (fun _ _ => ("s", true)) =
      .error (.unboundLocal ("seed")) :=
  ⟨rfl, buildSentinelToken_not_required_raises _ _ _ _ _ rfl⟩

/-! ## A `json.loads` model

Recursive-descent parser over the JSON subset that the repository's error
payloads use (objects, arrays, strings with the common escapes, integers,
booleans, null); anything else fails, as do trailing characters.  The fuel
bounds the recursion depth and is always sufficient at `2 * length + 2`. -/

def jsonSkipWs (cs : List Char) : List Char :=
  cs.dropWhile (fun c => c == ' ' || c == '\n' || c == '\t' || c == '\r')

def parseStrBody : Nat → List Char → Option (List Char × List Char)
  | 0, _ => none
  | _ + 1, [] => none
  | fuel + 1, c :: rest =>
    if c = '"' then some ([], rest)
    else if c = '\\' then
      match rest with
      | e :: rest2 =>
        let esc : Option Char :=
          if e = '"' then some '"'
          else if e = '\\' then some '\\'
          else if e = '/' then some '/'
          else if e = 'n' then some '\n'
          else if e = 't' then some '\t'
          else if e = 'r' then some '\r'
          else none
        match esc with
        | some ec =>
          match parseStrBody fuel rest2 with
          | some (body, rem) => some (ec :: body, rem)
          | none => none
        | none => none
      | [] => none
    else
      match parseStrBody fuel rest with
      | some (body, rem) => some (c :: body, rem)
      | none => none

mutual

def parseJsonVal : Nat → List Char → Option (Json × List Char)
  | 0, _ => none
  | fuel + 1, cs =>
    match jsonSkipWs cs with
    | [] => none
    | c :: rest =>
      if c = '"' then
        match parseStrBody fuel rest with
        | some (body, rem) => some (.str (String.mk body), rem)
        | none => none
      else if c = '[' then
        match jsonSkipWs rest with
        | ']' :: rem => some (.arr [], rem)
        | _ =>
          match parseArrItems fuel rest with
          | some (items, rem) => some (.arr items, rem)
          | none => none
      else if c = lbraceChar then
        match jsonSkipWs rest with
        | c2 :: rem =>
          if c2 = rbraceChar then some (.obj [], rem)
          else
            match parseObjItems fuel rest with
            | some (items, rem2) => some (.obj items, rem2)
            | none => none
        | [] => none
      else if c = 't' then
        match expectChars (("rue").toList) rest with
        | some rem => some (.boolean true, rem)
        | none => none
      else if c = 'f' then
        match expectChars (("alse").toList) rest with
        | some rem => some (.boolean false, rem)
        | none => none
      else if c = 'n' then
        match expectChars (("ull").toList) rest with
        | some rem => some (.null, rem)
        | none => none
      else if c = '-' then
        match rest.takeWhile Char.isDigit, rest.dropWhile Char.isDigit with
        | [], _ => none
        | ds, rem => some (.num (-(String.mk ds).toNat!), rem)
      else if c.isDigit then
        match (c :: rest).takeWhile Char.isDigit, (c :: rest).dropWhile Char.isDigit with
        | ds, rem => some (.num ((String.mk ds).toNat!), rem)
      else none

def parseArrItems : Nat → List Char → Option (List Json × List Char)
  | 0, _ => none
  | fuel + 1, cs =>
    match parseJsonVal fuel cs with
    | some (v, rem) =>
      match jsonSkipWs rem with
      | ',' :: rem2 =>
        match parseArrItems fuel rem2 with
        | some (items, rem3) => some (v :: items, rem3)
        | none => none
      | ']' :: rem2 => some ([v], rem2)
      | _ => none
    | none => none

def parseObjItems : Nat → List Char → Option (List (String × Json) × List Char)
  | 0, _ => none
  | fuel + 1, cs =>
    match jsonSkipWs cs with
    | '"' :: rest =>
      match parseStrBody fuel rest with
      | some (key, rem) =>
        match jsonSkipWs rem with
        | ':' :: rem2 =>
          match parseJsonVal fuel rem2 with
          | some (v, rem3) =>
            match jsonSkipWs rem3 with
            | ',' :: rem4 =>
              match parseObjItems fuel rem4 with
              | some (items, rem5) => some ((String.mk key, v) :: items, rem5)
              | none => none
            | c2 :: rem4 =>
              if c2 = rbraceChar then some ([(String.mk key, v)], rem4)
              else none
            | [] => none
          | none => none
        | _ => none
      | none => none
    | _ => none

end

/-- `json.loads`: parse one value and require only whitespace after it. -/
def jsonLoads (s : String) : Option Json :=
  match parseJsonVal (2 * s.length + 2) s.toList with
  | some (v, rem) => if jsonSkipWs rem = [] then some v else none
  | none => none

/-- Python truthiness of a parsed JSON value. -/
def pyTruthyJson : Json → Bool
  | .null => false
  | .boolean b => b
  | .num n => n != 0
  | .str s => s != ""
  | .arr l => !l.isEmpty
  | .obj l => !l.isEmpty

def lookupKey : List (String × Json) → String → Option Json
  | [], _ => none
  | (k, v) :: rest, key => if k = key then some v else lookupKey rest key

/-- `body.get("error", {}).get("code")` on a parsed JSON body, yielding the
code string when the shape matches. -/
def errorCodeOf (body : Option Json) : Option String :=
  match body with
  | some (Json.obj kvs) =>
    match lookupKey kvs ("error") with
    | some (Json.obj ekvs) =>
      match lookupKey ekvs ("code") with
      | some (Json.str s) => some s
      | _ => none
    | _ => none
  | _ => none

/-! ## Error mapping of `SoraClient._make_request`
(sora_client.py lines 384-417) -/

/-! The serializer matching `json.dumps` with its default separators
`(", ", ": ")`, used when `_make_request` re-raises a structured error body
(line 399). -/

mutual

def jsonDumpsPy : Json → List Char
  | .null => ("null").toList
  | .boolean true => ("true").toList
  | .boolean false => ("false").toList
  | .num n => intDigits n
  | .str s => '"' :: jsonEscape s.toList ++ [ '"' ]
  | .arr l => '[' :: jsonDumpsPyArr l ++ [ ']' ]
  | .obj l => lbraceChar :: jsonDumpsPyObj l ++ [rbraceChar]

def jsonDumpsPyArr : List Json → List Char
  | [] => []
  | [x] => jsonDumpsPy x
  | x :: y :: xs => jsonDumpsPy x ++ ',' :: ' ' :: jsonDumpsPyArr (y :: xs)

def jsonDumpsPyObj : List (String × Json) → List Char
  | [] => []
  | [(k, v)] => '"' :: jsonEscape k.toList ++ [ '"', ':', ' ' ] ++ jsonDumpsPy v
  | (k, v) :: e :: es =>
    '"' :: jsonEscape k.toList ++ [ '"', ':', ' ' ] ++ jsonDumpsPy v ++
      ',' :: ' ' :: jsonDumpsPyObj (e :: es)

end

/-- Credential-store mutations observable from `_make_request`. -/
inductive DbEffect where
  | markTokenExpired (tokenId : Nat)
  deriving Repr, DecidableEq

/-- Result of the status-check tail of `_make_request`. -/
structure MakeRequestOutcome where
  raisedMsg : Option String
  dbEffects : List DbEffect
  deriving Repr, DecidableEq

/-- Generic failure message `f"API request failed: {status} - {text}"`. -/
def genericFailMsg (statusCode : Nat) (bodyText : String) : String :=
  "API request failed: " ++ String.mk (natDigits statusCode) ++ " - " ++ bodyText

/-- Status handling of `_make_request` (sora_client.py lines 384-417): a
2xx returns, a structured `unsupported_country_code` body is re-raised as
its JSON dump, and every other non-2xx — including 401 and bodies with
`error.code = "cf_shield_429"` — raises the generic message.  No path in
this code touches the credential store, hence the empty effect list.
`body` is the parsed response body when it is JSON, `bodyText` the raw
response text. -/
def makeRequestIsCountry (body : Option Json) : Bool :=
  match body with
  | some j => pyTruthyJson j &&
      (errorCodeOf (some j) == some ("unsupported_country_code"))
  | none => false

def makeRequestCheckStatus (statusCode : Nat) (body : Option Json)
    (bodyText : String) : MakeRequestOutcome :=
  if statusCode = 200 ∨ statusCode = 201 then
    { raisedMsg := none, dbEffects := [] }
  else if makeRequestIsCountry body then
    { raisedMsg := some (String.mk (jsonDumpsPy (body.getD Json.null))),
      dbEffects := [] }
  else
    { raisedMsg := some (genericFailMsg statusCode bodyText), dbEffects := [] }

/-- Counterexample to C3 as stated: a 401 response raises the generic
failure without marking the credential expired — the expiry flag is not
touched anywhere in `_make_request`. -/
theorem makeRequest_401_expiry_counterexample :
    (makeRequestCheckStatus 401 none ("Unauthorized")).raisedMsg =
      some ("API request failed: 401 - Unauthorized") ∧
    (makeRequestCheckStatus 401 none ("Unauthorized")).dbEffects = [] := by
  constructor
  · decide
  · decide

/-- C3 amended: on a 401 (as on every other non-2xx without the
`unsupported_country_code` code) `_make_request` raises the generic failure
message and performs no credential mutation; in particular the credential is
never marked expired by this code. -/
theorem makeRequest_401_marks_nothing (body : Option Json) (bodyText : String) :
    (makeRequestCheckStatus 401 body bodyText).dbEffects = [] ∧
    (errorCodeOf body ≠ some ("unsupported_country_code") →
      (makeRequestCheckStatus 401 body bodyText).raisedMsg =
        some (genericFailMsg 401 bodyText)) := by
  have h401 : ¬ ((401 : Nat) = 200 ∨ (401 : Nat) = 201) := by decide
  constructor
  · unfold makeRequestCheckStatus
    split_ifs <;> rfl
  · intro hnc
    have hic : makeRequestIsCountry body = false := by
      cases body with
      | none => rfl
      | some j =>
        have hbe : (errorCodeOf (some j) ==
            some ("unsupported_country_code")) = false := by
          rw [beq_eq_false_iff_ne]
          exact hnc
        simp [makeRequestIsCountry, hbe]
    unfold makeRequestCheckStatus
    rw [if_neg h401, if_neg (by simp [hic])]

/-- Witness for the amended C3 at a concrete 401 response. -/
theorem makeRequest_401_marks_nothing_witness :
    ((makeRequestCheckStatus 401 none ("Unauthorized")).dbEffects = [] ∧
      (errorCodeOf none ≠ some ("unsupported_country_code") →
        (makeRequestCheckStatus 401 none ("Unauthorized")).raisedMsg =
          some (genericFailMsg 401 ("Unauthorized")))) ∧
    errorCodeOf none ≠ some ("unsupported_country_code") :=
  ⟨makeRequest_401_marks_nothing none ("Unauthorized"), by decide⟩

/-! ## The polling loop and the generation handler
(`GenerationHandler._poll_task_result` and `handle_generation`,
src/services/generation_handler.py)

The model covers the video branch (`is_video=True`) of the polling loop at
`stream=True`, with the watermark-free mode disabled in configuration (the
watermark-free sub-flow, lines 793-918, performs no lock or slot operation
and converges to the same terminal emissions).  Upstream responses, the
clock and the cache outcome are inputs; the trace records the observable
effects: emitted stream data, slot releases, task and request-log writes. -/

/-- One draft item, with the fields `_poll_task_result` reads. -/
structure DraftItem where
  kind : Option String := none
  reasonStr : Option String := none
  markdownReasonStr : Option String := none
  url : Option String := none
  downloadableUrl : Option String := none
  deriving Repr, DecidableEq

/-- Upstream outcome of one polling attempt: the task is still pending, it
appears in the drafts, it is in neither list, or the polled call raised an
exception with the given `str(e)`. -/
inductive VideoTick where
  | pendingFound (progressPct : Option Int) (status : Option String)
  | draftFound (item : DraftItem) (cacheOk : Bool)
  | notFound
  | raiseMsg (msg : String)
  deriving Repr, DecidableEq

/-- One `yield` of the generator.  `chunk` stands for
`_format_stream_chunk(content, reasoning_content, finish_reason, is_first)`
(lines 1161-1213), whose serialized form is `data: {json}\n\n` with
`choices[0].finish_reason` equal to the `finish` field; `progressEst` is the
estimated-progress chunk whose text renders a float with `:.0f`; `raw` is a
literal string yield. -/
inductive Emission where
  | chunk (content reasoning finish : Option String) (isFirst : Bool)
  | progressEst (estimated : Rat)
  | raw (s : String)
  deriving Repr, DecidableEq

inductive PollExit where
  | completed
  | violationExit
  | cfShieldExit
  | timeoutRaise (msg : String)
  | genericRaise (msg : String)
  deriving Repr, DecidableEq

/-- Observable effects of one `_poll_task_result` run. -/
structure PollTrace where
  exit : PollExit
  videoReleases : Nat
  emissions : List Emission
  attemptsUsed : Nat
  taskWrites : List String
  logWrites : List Nat
  deriving Repr, DecidableEq

/-- Environment of one polling run: upstream ticks, the clock (elapsed
seconds at the head of each attempt), configuration, and the strings the
cache produces. -/
structure PollEnv where
  ticks : Nat → VideoTick
  elapsed : Nat → Int
  timeout : Int
  maxAttempts : Nat
  cacheEnabled : Bool
  hasCM : Bool
  tokenIdPresent : Bool
  logIdPresent : Bool
  baseUrl : String
  cachedFilename : String
  cacheErrMsg : String

/-- Rendering of `None`-or-string in an f-string. -/
def pyStrOfOpt : Option String → String
  | none => "None"
  | some s => s

def intStr (n : Int) : String := String.mk (intDigits n)

/-- `f"Upstream API timeout: Generation exceeded {timeout} seconds limit"`. -/
def timeoutMsg (t : Int) : String :=
  "Upstream API timeout: Generation exceeded " ++ intStr t ++ " seconds limit"

/-- Truthiness of `reason_str and reason_str.strip()`. -/
def pyTruthyStrip : Option String → Bool
  | none => false
  | some s => s != "" && !(pyStrip s.toList).isEmpty

/-- Exception classifier of the polling loop (generation_handler.py lines
1085-1095): the `str(e)` must itself parse as a JSON object whose
`error.code` is `"cf_shield_429"`. -/
def pollClassifyCf (msg : String) : Bool :=
  match jsonLoads msg with
  | some (Json.obj kvs) =>
    (match lookupKey kvs ("error") with
     | some (Json.obj e) =>
       (match lookupKey e ("code") with
        | some (Json.str s) => s == "cf_shield_429"
        | _ => false)
     | _ => false)
  | _ => false

def aposChar : Char := Char.ofNat 39

/-- The terminal HTML content chunk body (line 961). -/
def htmlVideo (u : String) : String :=
  "```html\n<video src=" ++ String.singleton aposChar ++ u ++
    String.singleton aposChar ++ " controls></video>\n```"

def cachingText : String :=
  "**Video Generation Completed**\n\nVideo generation successful. Now caching the video file...\n"

def cachedOkText : String :=
  "Video file cached successfully. Preparing final response...\n"

def cacheDisabledText : String :=
  "**Video Generation Completed**\n\nCache is disabled. Using original URL directly...\n"

def prependEms (ems : List Emission) (t : PollTrace) : PollTrace :=
  { t with emissions := ems ++ t.emissions }

/-- The estimated-progress fallback block (lines 1076-1082): every tenth
attempt, when the estimate `min(90, attempt/max_attempts*100)` exceeds the
last progress by more than 20, a progress chunk is emitted and the last
progress is advanced. -/
def estBlock (maxAttempts : Nat) (attempt : Nat) (lastProgress : Rat) :
    List Emission × Rat :=
  if attempt % 10 = 0 then
    let est : Rat := min 90 ((attempt : Rat) / (maxAttempts : Rat) * 100)
    if est > lastProgress + 20 then ([.progressEst est], est)
    else ([], lastProgress)
  else ([], lastProgress)

/-- The violation test on a found draft item (lines 745-756). -/
def draftIsViolation (item : DraftItem) : Bool :=
  (item.kind == some ("sora_content_violation")) ||
    pyTruthyStrip (pyOr item.reasonStr item.markdownReasonStr) ||
    !optStrTruthy (pyOr item.url item.downloadableUrl)

/-- The body of the polling loop (`_poll_task_result`, lines 662-1159, video
branch at `stream=True`).  The fuel is the remaining range of the
`for attempt in range(max_attempts)` loop; the running state carries
`last_progress` and `last_status_output_time` (as elapsed seconds). -/
def pollVideoAux (env : PollEnv) :
    Nat → Nat → Rat → Int → PollTrace
  | attempt, 0, _lastProgress, _lastStatusOut =>
    { exit := .timeoutRaise (timeoutMsg env.timeout),
      videoReleases := if env.tokenIdPresent && env.hasCM then 1 else 0,
      emissions := [], attemptsUsed := attempt,
      taskWrites := ["failed"], logWrites := [] }
  | attempt, fuel + 1, lastProgress, lastStatusOut =>
    if env.elapsed attempt > env.timeout then
      { exit := .timeoutRaise (timeoutMsg env.timeout),
        videoReleases := if env.tokenIdPresent && env.hasCM then 1 else 0,
        emissions := [], attemptsUsed := attempt + 1,
        taskWrites := ["failed"],
        logWrites := if env.logIdPresent then [408] else [] }
    else
      match env.ticks attempt with
      | .pendingFound progressPct status =>
        let pct : Int := progressPct.getD 0
        let emitStatus : Bool := env.elapsed attempt - lastStatusOut ≥ 30
        let lastStatusOut2 := if emitStatus then env.elapsed attempt else lastStatusOut
        let ems1 : List Emission :=
          if emitStatus then
            [.chunk none (some ("**Video Generation Progress**: " ++ intStr pct ++
              "% (" ++ pyStrOfOpt status ++ ")\n")) none false]
          else []
        let eb := estBlock env.maxAttempts attempt (pct : Rat)
        prependEms (ems1 ++ eb.1)
          (pollVideoAux env (attempt + 1) fuel eb.2 lastStatusOut2)
      | .notFound =>
        let eb := estBlock env.maxAttempts attempt lastProgress
        prependEms eb.1 (pollVideoAux env (attempt + 1) fuel eb.2 lastStatusOut)
      | .draftFound item cacheOk =>
        let reasonStr := pyOr item.reasonStr item.markdownReasonStr
        if draftIsViolation item then
          { exit := .violationExit,
            videoReleases := if env.tokenIdPresent && env.hasCM then 1 else 0,
            emissions := [
              .chunk none (some ("**Content Policy Violation**\n\n" ++
                pyStrOfOpt reasonStr ++ "\n")) none false,
              .chunk (some ("❌ 生成失败: " ++ pyStrOfOpt reasonStr)) none
                (some ("STOP")) false,
              .raw ("data: [DONE]\n\n")],
            attemptsUsed := attempt + 1,
            taskWrites := ["failed"], logWrites := [] }
        else
          let url2 := pyOr item.downloadableUrl item.url
          if optStrTruthy url2 then
            let urlS := url2.getD ("")
            let emsAndUrl : List Emission × String :=
              if env.cacheEnabled then
                if cacheOk then
                  ([.chunk none (some cachingText) none false,
                    .chunk none (some cachedOkText) none false],
                   env.baseUrl ++ "/tmp/" ++ env.cachedFilename)
                else
                  ([.chunk none (some cachingText) none false,
                    .chunk none (some ("Warning: Failed to cache file - " ++
                      env.cacheErrMsg ++ "\nUsing original URL instead...\n"))
                      none false],
                   urlS)
              else
                ([.chunk none (some cacheDisabledText) none false], urlS)
            { exit := .completed,
              videoReleases := 0,
              emissions := emsAndUrl.1 ++ [
                .chunk (some (htmlVideo emsAndUrl.2)) none (some ("STOP")) false,
                .raw ("data: [DONE]\n\n")],
              attemptsUsed := attempt + 1,
              taskWrites := ["completed"], logWrites := [] }
          else
            let eb := estBlock env.maxAttempts attempt lastProgress
            prependEms eb.1
              (pollVideoAux env (attempt + 1) fuel eb.2 lastStatusOut)
      | .raiseMsg msg =>
        if pollClassifyCf msg then
          { exit := .cfShieldExit,
            videoReleases := if env.tokenIdPresent && env.hasCM then 1 else 0,
            emissions := [
              .chunk none (some ("**CF Shield/429 Error**\\n\\nCloudflare challenge or rate limit (429) triggered\\n"))
                none false,
              .chunk (some ("❌ Generation failed: Cloudflare challenge or rate limit (429) triggered. Please change proxy or reduce request frequency."))
                none (some ("STOP")) false,
              .raw ("data: [DONE]\\n\\n")],
            attemptsUsed := attempt + 1,
            taskWrites := ["failed"],
            logWrites := if env.logIdPresent then [429] else [] }
        else if attempt + 1 ≥ env.maxAttempts then
          { exit := .genericRaise msg, videoReleases := 0, emissions := [],
            attemptsUsed := attempt + 1, taskWrites := [], logWrites := [] }
        else
          pollVideoAux env (attempt + 1) fuel lastProgress lastStatusOut

/-- `_poll_task_result` for a video task at `stream=True`. -/
def pollVideo (env : PollEnv) : PollTrace :=
  pollVideoAux env 0 env.maxAttempts 0 0

/-! ## The error tail of `handle_generation` (lines 584-638) -/

/-- Effects of the `except` block of `handle_generation`: whether
`record_error` runs (and with which overload flag), and the status code
written to the request log when one exists. -/
structure HandlerErrorEffects where
  recordErrorCalled : Bool
  recordErrorOverload : Bool
  logStatus : Option Nat
  deriving Repr, DecidableEq

/-- Substring test on character lists (Python `in`). -/
def containsSub : List Char → List Char → Bool
  | hay, needle =>
    match hay with
    | [] => needle.isEmpty
    | _ :: hs => listIsPrefixOf needle hay || containsSub hs needle

/-- The `except` block of `handle_generation` (lines 584-638): the error
text is parsed as JSON to detect `cf_shield_429`; `record_error` runs (for a
selected credential) unless that code matched, with the overload flag from a
substring test on the lowercased message; the request log, when present,
receives 429 for the cf case, 400 for other truthy structured errors, and
500 otherwise. -/
def handleGenerationOnError (msg : String) (hasToken : Bool)
    (hasLogId : Bool) : HandlerErrorEffects :=
  let errorResponse := jsonLoads msg
  let isCf :=
    match errorResponse with
    | some (Json.obj kvs) =>
      pyTruthyJson (Json.obj kvs) &&
        (match lookupKey kvs ("error") with
         | some (Json.obj e) =>
           (match lookupKey e ("code") with
            | some (Json.str s) => s == "cf_shield_429"
            | _ => false)
         | _ => false)
    | _ => false
  let lower := msg.toList.map Char.toLower
  let isOverload := containsSub lower (("heavy_load").toList) ||
    containsSub lower (("under heavy load").toList)
  { recordErrorCalled := hasToken && !isCf,
    recordErrorOverload := isOverload,
    logStatus :=
      if hasLogId then
        match errorResponse with
        | some j => if pyTruthyJson j then (if isCf then some 429 else some 400)
            else some 500
        | none => some 500
      else none }

/-- Observable effects of one `handle_generation` run. -/
structure HandlerTrace where
  videoReleases : Nat
  recordUsage : Bool
  recordSuccess : Bool
  recordErrorCalled : Bool
  logWrites : List Nat
  emissions : List Emission
  raisedMsg : Option String
  taskWrites : List String
  deriving Repr, DecidableEq

/-- `handle_generation` for a streamed video request without image
attachment, remix id or video attachment, at a non-storyboard prompt, after
a successful credential selection and slot acquisition (lines 389-638).
`createRaise` is `some msg` when the upstream create call raises with
`str(e) = msg` (the request log is created only after the create succeeds,
so `log_id` is `None` on that path). -/
def handleGenerationVideo (createRaise : Option String) (env : PollEnv) :
    HandlerTrace :=
  let initialEms : List Emission :=
    [.chunk none (some ("**Generation Process Begins**\n\nInitializing generation request...\n"))
      none true]
  match createRaise with
  | some msg =>
    let eff := handleGenerationOnError msg true false
    { videoReleases := if env.hasCM then 1 else 0,
      recordUsage := false, recordSuccess := false,
      recordErrorCalled := eff.recordErrorCalled,
      logWrites := (eff.logStatus).toList,
      emissions := initialEms, raisedMsg := some msg, taskWrites := [] }
  | none =>
    let pt := pollVideo env
    match pt.exit with
    | .completed =>
      { videoReleases := pt.videoReleases + (if env.hasCM then 1 else 0),
        recordUsage := true, recordSuccess := true, recordErrorCalled := false,
        logWrites := pt.logWrites ++ (if env.logIdPresent then [200] else []),
        emissions := initialEms ++ pt.emissions, raisedMsg := none,
        taskWrites := pt.taskWrites }
    | .violationExit =>
      { videoReleases := pt.videoReleases + (if env.hasCM then 1 else 0),
        recordUsage := true, recordSuccess := true, recordErrorCalled := false,
        logWrites := pt.logWrites ++ (if env.logIdPresent then [200] else []),
        emissions := initialEms ++ pt.emissions, raisedMsg := none,
        taskWrites := pt.taskWrites }
    | .cfShieldExit =>
      { videoReleases := pt.videoReleases + (if env.hasCM then 1 else 0),
        recordUsage := true, recordSuccess := true, recordErrorCalled := false,
        logWrites := pt.logWrites ++ (if env.logIdPresent then [200] else []),
        emissions := initialEms ++ pt.emissions, raisedMsg := none,
        taskWrites := pt.taskWrites }
    | .timeoutRaise msg =>
      let eff := handleGenerationOnError msg true env.logIdPresent
      { videoReleases := pt.videoReleases + (if env.hasCM then 1 else 0),
        recordUsage := true, recordSuccess := false,
        recordErrorCalled := eff.recordErrorCalled,
        logWrites := pt.logWrites ++ (eff.logStatus).toList,
        emissions := initialEms ++ pt.emissions, raisedMsg := some msg,
        taskWrites := pt.taskWrites }
    | .genericRaise msg =>
      let eff := handleGenerationOnError msg true env.logIdPresent
      { videoReleases := pt.videoReleases + (if env.hasCM then 1 else 0),
        recordUsage := true, recordSuccess := false,
        recordErrorCalled := eff.recordErrorCalled,
        logWrites := pt.logWrites ++ (eff.logStatus).toList,
        emissions := initialEms ++ pt.emissions, raisedMsg := some msg,
        taskWrites := pt.taskWrites }

/-! ## Concrete runs of the polling loop and handler (claims C1, C2, C6) -/

def violationItem : DraftItem :=
  { kind := some ("sora_content_violation"), reasonStr := some ("bad content") }

def successItem : DraftItem :=
  { url := some ("http://u/v.mp4"), downloadableUrl := some ("http://u/dl.mp4") }

def basePollEnv : PollEnv :=
  { ticks := fun _ => .notFound, elapsed := fun _ => 0, timeout := 900,
    maxAttempts := 3, cacheEnabled := false, hasCM := true,
    tokenIdPresent := true, logIdPresent := true, baseUrl := "http://h:8000",
    cachedFilename := "abc.mp4", cacheErrMsg := "boom" }

def envViolation : PollEnv :=
  { basePollEnv with ticks := fun _ => .draftFound violationItem true }

def envSuccess : PollEnv :=
  { basePollEnv with ticks := fun _ => .draftFound successItem true }

def envTimeout : PollEnv :=
  { basePollEnv with elapsed := fun _ => 901 }

def cfShieldBody : Json :=
  Json.obj [("error", Json.obj [("code", Json.str ("cf_shield_429"))])]

/-- A `str(e)` that is itself the JSON object — the only shape the cf-shield
branch of the polling loop accepts. -/
def cfRawMsg : String := String.mk (jsonDumps cfShieldBody)

/-- The response text of an upstream cf-shield 429 reply. -/
def cfUpstreamText : String := String.mk (jsonDumpsPy cfShieldBody)

/-- The message `_make_request` actually raises on that reply. -/
def cfGenericMsg : String := genericFailMsg 429 cfUpstreamText

def envCfRaw : PollEnv :=
  { basePollEnv with ticks := fun _ => .raiseMsg cfRawMsg }

def envCfGeneric : PollEnv :=
  { basePollEnv with ticks := fun _ => .raiseMsg cfGenericMsg, maxAttempts := 2 }

theorem prependEms_videoReleases (e : List Emission) (t : PollTrace) :
    (prependEms e t).videoReleases = t.videoReleases := rfl

theorem prependEms_exit (e : List Emission) (t : PollTrace) :
    (prependEms e t).exit = t.exit := rfl

theorem pollVideoAux_releases (env : PollEnv) :
    ∀ fuel attempt lp ls,
      (pollVideoAux env attempt fuel lp ls).videoReleases =
        (match (pollVideoAux env attempt fuel lp ls).exit with
         | .completed => 0
         | .genericRaise _ => 0
         | _ => if env.tokenIdPresent && env.hasCM then 1 else 0) := by
  intro fuel
  induction fuel with
  | zero => intro attempt lp ls; rfl
  | succ n ih =>
    intro attempt lp ls
    simp only [pollVideoAux]
    split
    · rfl
    · split <;>
        first
          | rfl
          | (simp only [prependEms_videoReleases, prependEms_exit]; exact ih _ _ _)
          | (exact ih _ _ _)
          | (split <;>
              first
                | rfl
                | (simp only [prependEms_videoReleases, prependEms_exit];
                    exact ih _ _ _)
                | (exact ih _ _ _)
                | (split <;>
                    first
                      | rfl
                      | (simp only [prependEms_videoReleases, prependEms_exit];
                          exact ih _ _ _)
                      | (exact ih _ _ _)))

theorem pollVideo_releases (env : PollEnv) :
    (pollVideo env).videoReleases =
      (match (pollVideo env).exit with
       | .completed => 0
       | .genericRaise _ => 0
       | _ => if env.tokenIdPresent && env.hasCM then 1 else 0) :=
  pollVideoAux_releases env env.maxAttempts 0 0 0

/-- C1: the slot-release counts of `handle_generation` per exit path, for
every environment (upstream behavior, clock and configuration).  On the
content-violation, timeout and cf-shield exits the video slot is released
twice — once inside `_poll_task_result` and once more by
`handle_generation`'s own completion or `except` tail — while the plain
success, generic-error and create-failure paths release it once.  The
claim's "released exactly once — never twice" is therefore violated by the
code (and the concurrency counter, which `release_video` increments
unconditionally, drifts upward by one on each such request). -/
theorem handleGeneration_release_counts (env : PollEnv)
    (hcm : env.hasCM = true) (htok : env.tokenIdPresent = true) :
    (handleGenerationVideo none env).videoReleases =
      (match (pollVideo env).exit with
       | .completed => 1
       | .genericRaise _ => 1
       | _ => 2) ∧
    (handleGenerationVideo (some ("boom")) env).videoReleases = 1 := by
  have hrel := pollVideo_releases env
  rw [htok, hcm] at hrel
  constructor
  · simp only [handleGenerationVideo]
    cases hexit : (pollVideo env).exit with
    | completed =>
      rw [hexit] at hrel
      simp only [hexit, hrel, hcm]
      decide
    | violationExit =>
      rw [hexit] at hrel
      simp only [hexit, hrel, hcm]
      decide
    | cfShieldExit =>
      rw [hexit] at hrel
      simp only [hexit, hrel, hcm]
      decide
    | timeoutRaise msg =>
      rw [hexit] at hrel
      simp only [hexit, hrel, hcm]
      decide
    | genericRaise msg =>
      rw [hexit] at hrel
      simp only [hexit, hrel, hcm]
      decide
  · simp only [handleGenerationVideo, hcm]
    decide

/-- Witness for C1 at concrete runs: the content-violation environment
exits on the violation path and releases the slot twice; evaluated
instances also pin the timeout (twice), cf-shield (twice) and success
(once) paths. -/
theorem handleGeneration_release_counts_witness :
    (envViolation.hasCM = true ∧ envViolation.tokenIdPresent = true ∧
      ((handleGenerationVideo none envViolation).videoReleases =
        (match (pollVideo envViolation).exit with
         | .completed => 1
         | .genericRaise _ => 1
         | _ => 2) ∧
       (handleGenerationVideo (some ("boom")) envViolation).videoReleases = 1)) ∧
    (pollVideo envViolation).exit = .violationExit ∧
    (handleGenerationVideo none envViolation).videoReleases = 2 ∧
    (handleGenerationVideo none envTimeout).videoReleases = 2 ∧
    (handleGenerationVideo none envCfRaw).videoReleases = 2 ∧
    (handleGenerationVideo none envSuccess).videoReleases = 1 :=
  ⟨⟨rfl, rfl, handleGeneration_release_counts envViolation rfl rfl⟩,
   by decide, by decide, by decide, by decide, by decide⟩

/-- C2: the cf-shield fast-fail branch is dead code.  On an upstream 429
whose body carries `error.code = "cf_shield_429"`, `_make_request` raises
the generic `"API request failed: ..."` message (only
`unsupported_country_code` is re-raised as JSON); that message does not
parse as JSON, so the polling loop's classifier rejects it and the loop
keeps retrying instead of stopping (two attempts used with two ticks);
`handle_generation` then calls `record_error` and logs status 500, and the
task is never marked failed on this path — against the claim's "abort
immediately, status 429, no record_error".  The classifier itself accepts
the bare JSON body, which no raise site produces. -/
theorem cfShield429_dead_branch :
    (makeRequestCheckStatus 429 (some cfShieldBody) cfUpstreamText).raisedMsg =
      some cfGenericMsg ∧
    pollClassifyCf cfGenericMsg = false ∧
    (pollVideo envCfGeneric).exit = .genericRaise cfGenericMsg ∧
    (pollVideo envCfGeneric).attemptsUsed = 2 ∧
    (handleGenerationVideo none envCfGeneric).recordErrorCalled = true ∧
    (handleGenerationVideo none envCfGeneric).logWrites = [500] ∧
    (handleGenerationVideo none envCfGeneric).taskWrites = [] ∧
    pollClassifyCf cfRawMsg = true := by
  refine ⟨?_, ?_, ?_, ?_, ?_, ?_, ?_, ?_⟩ <;> decide

/-- C6: terminal emissions of `_poll_task_result`.  On the success and
content-violation branches the last JSON chunk carries
`finish_reason="STOP"` and the final emission is exactly
`data: [DONE]` + two newlines, as claimed; but on the cf-shield branch the
code yields the string `data: [DONE]\n\n` with literal backslash-n
characters (line 1134 escapes the newlines), which differs from the claimed
terminator. -/
theorem pollTaskResult_terminal_emissions :
    (pollVideo envSuccess).emissions =
      [.chunk none (some cacheDisabledText) none false,
       .chunk (some (htmlVideo ("http://u/dl.mp4"))) none (some ("STOP")) false,
       .raw ("data: [DONE]\n\n")] ∧
    (pollVideo envViolation).emissions =
      [.chunk none (some ("**Content Policy Violation**\n\nbad content\n")) none false,
       .chunk (some ("❌ 生成失败: bad content")) none (some ("STOP")) false,
       .raw ("data: [DONE]\n\n")] ∧
    (pollVideo envCfRaw).emissions.getLast? = some (.raw ("data: [DONE]\\n\\n")) ∧
    ("data: [DONE]\\n\\n" : String) ≠ ("data: [DONE]\n\n" : String) := by
  refine ⟨?_, ?_, ?_, ?_⟩ <;> decide

end SoraSpec
